import Mathlib

/-!
Verification of the `dimtypes` dimensional-analysis library.

Shallow embedding of `src/dimtypes`: the runtime payload of a
`Quantity<T,L,M,I,TEMP>` is a single `f64`, modelled here as a real number
(exact arithmetic); the five const-generic dimension exponents live at the
type level in the source and are modelled as a separate `Dim` record of
integers, with the source's type-level arithmetic reproduced as functions
on `Dim`.  The generic `Dimen` parameter of `OffsetSystem`/`LogUnit` is
instantiated at `Quantity`, which is what every claim uses.
-/

open Real

noncomputable section

/-- The five const-generic dimension exponents of `Quantity<T,L,M,I,TEMP>`:
time, length, mass, current, temperature. -/
structure Dim where
  T : Int
  L : Int
  M : Int
  I : Int
  TEMP : Int
  deriving DecidableEq, Repr

/-- The `as i32` cast applied to the const exponent in lib.rs line 143:
two's-complement wrapping of the 64-bit `isize` value to 32 bits. -/
def wrap32 (P : ℤ) : ℤ := (P + 2 ^ 31) % 2 ^ 32 - 2 ^ 31

/-- `Quantity` (lib.rs line 17): wraps a single `f64` field `value_si`,
the value in SI base units, modelled as a real number. -/
@[ext]
structure Quantity where
  value_si : ℝ

namespace Quantity

/-- `impl Add for Quantity` (lib.rs lines 239-243). -/
def add (q r : Quantity) : Quantity := ⟨q.value_si + r.value_si⟩

/-- `impl Sub for Quantity` (lib.rs lines 244-248). -/
def sub (q r : Quantity) : Quantity := ⟨q.value_si - r.value_si⟩

/-- `impl Neg for Quantity` (lib.rs lines 249-253). -/
def neg (q : Quantity) : Quantity := ⟨-q.value_si⟩

/-- `impl Mul<Quantity> for Quantity` (lib.rs lines 257-267), value part. -/
def mul (q r : Quantity) : Quantity := ⟨q.value_si * r.value_si⟩

/-- `impl Div<Quantity> for Quantity` (lib.rs lines 268-278), value part. -/
def div (q r : Quantity) : Quantity := ⟨q.value_si / r.value_si⟩

/-- `impl Mul<f64> for Quantity` (lib.rs lines 283-287). -/
def mulF (q : Quantity) (rhs : ℝ) : Quantity := ⟨q.value_si * rhs⟩

/-- `impl Div<f64> for Quantity` (lib.rs lines 288-292). -/
def divF (q : Quantity) (rhs : ℝ) : Quantity := ⟨q.value_si / rhs⟩

/-- `impl Mul<Quantity> for f64` (lib.rs lines 293-297). -/
def fMul (lhs : ℝ) (q : Quantity) : Quantity := ⟨lhs * q.value_si⟩

/-- `Quantity::as_si` (lib.rs line 141). -/
def as_si (q : Quantity) : ℝ := q.value_si

/-- `Quantity::from_si` (lib.rs line 142). -/
def from_si (val : ℝ) : Quantity := ⟨val⟩

/-- `impl Unit for Quantity`, `qty_to_val` (lib.rs line 32):
`value.value_si / self.value_si`. -/
def qty_to_val (self value : Quantity) : ℝ := value.value_si / self.value_si

/-- `impl Unit for Quantity`, `val_to_qty` (lib.rs line 33): `value * (*self)`. -/
def val_to_qty (self : Quantity) (value : ℝ) : Quantity := fMul value self

/-- `Quantity::pow::<P>` value part (lib.rs line 143):
`self.value_si.powi(P as i32)`, i.e. the integer power of the exponent
after the silently wrapping `as i32` cast (reciprocal for negative
wrapped exponents). -/
def pow (q : Quantity) (P : ℤ) : Quantity := ⟨q.value_si ^ wrap32 P⟩

/-- `Quantity::root::<R>` value part (lib.rs line 144):
`self.value_si.powf(1.0/(R as f64))`. -/
def root (q : Quantity) (R : ℤ) : Quantity := ⟨q.value_si ^ ((1 : ℝ) / (R : ℝ))⟩

end Quantity

/-- Type-level exponents of `Quantity::pow::<P>` (lib.rs line 143):
`Quantity<{P*T},{P*L},{P*M},{P*I},{P*TEMP}>`. -/
def powDim (P : ℤ) (d : Dim) : Dim :=
  ⟨P * d.T, P * d.L, P * d.M, P * d.I, P * d.TEMP⟩

/-- `div_evenly` (lib.rs lines 131-136): a `const fn` whose panic during
constant evaluation is modelled as `none`.  It panics when
`num % den != 0` (and also when `den = 0`, where the Rust `%` itself
panics); otherwise it returns `num / den`.  Rust `%` and `/` on `isize`
truncate toward zero, i.e. `Int.tmod` and `Int.tdiv`. -/
def div_evenly (num den : ℤ) : Option ℤ :=
  if den = 0 then none
  else if num.tmod den ≠ 0 then none
  else some (num.tdiv den)

/-- Type-level exponents of `Quantity::root::<R>` (lib.rs line 144):
`Quantity<{div_evenly(T,R)},...,{div_evenly(TEMP,R)}>`; `none` models the
compile-time rejection when any `div_evenly` call panics. -/
def rootDim (R : ℤ) (d : Dim) : Option Dim := do
  let t ← div_evenly d.T R
  let l ← div_evenly d.L R
  let m ← div_evenly d.M R
  let i ← div_evenly d.I R
  let θ ← div_evenly d.TEMP R
  pure ⟨t, l, m, i, θ⟩

/-- `OffsetSystem<Dimen>` (lib.rs lines 46-50), with `Dimen` a `Quantity`. -/
structure OffsetSystem where
  unit : Quantity
  zero : Quantity

namespace OffsetSystem

/-- `OffsetSystem::new` (lib.rs lines 52-54). -/
def new (baseunit zero : Quantity) : OffsetSystem := ⟨baseunit, zero⟩

/-- `OffsetSystem::zero_qty` (lib.rs line 55). -/
def zero_qty (s : OffsetSystem) : Quantity := s.zero

/-- `impl Unit for OffsetSystem`, `qty_to_val` (lib.rs lines 77-79):
`((value - self.zero) / self.unit).into()`. -/
def qty_to_val (s : OffsetSystem) (value : Quantity) : ℝ :=
  ((value.sub s.zero).div s.unit).value_si

/-- `impl Unit for OffsetSystem`, `val_to_qty` (lib.rs lines 80-82):
`value * self.unit + self.zero`. -/
def val_to_qty (s : OffsetSystem) (value : ℝ) : Quantity :=
  (Quantity.fMul value s.unit).add s.zero

/-- `OffsetSystem::as_abs_unit` (lib.rs line 61): returns `*self`. -/
def as_abs_unit (s : OffsetSystem) : OffsetSystem := s

/-- `OffsetSystem::abs_qty_of` (lib.rs line 62): `self.val_to_qty(value)`. -/
def abs_qty_of (s : OffsetSystem) (value : ℝ) : Quantity := s.val_to_qty value

/-- `OffsetSystem::as_rel_unit` (lib.rs line 67): returns `self.unit`, the
base linear unit, which converts via the `Quantity` `Unit` impl. -/
def as_rel_unit (s : OffsetSystem) : Quantity := s.unit

/-- `OffsetSystem::rel_qty_of` (lib.rs line 68): `self.unit.val_to_qty(value)`. -/
def rel_qty_of (s : OffsetSystem) (value : ℝ) : Quantity :=
  s.unit.val_to_qty value

end OffsetSystem

/-- `LogUnit<Dimen>` from lib.rs (lines 91-96): stores the logarithm base
directly, together with the scale and the reference quantity. -/
structure LogUnit where
  base : ℝ
  scale : ℝ
  reference : Quantity

namespace LogUnit

/-- `LogUnit::new` (lib.rs lines 98-100). -/
def new (base scale : ℝ) (reference : Quantity) : LogUnit :=
  ⟨base, scale, reference⟩

/-- `LogUnit::base10` (lib.rs line 101). -/
def base10 (scale : ℝ) (reference : Quantity) : LogUnit := new 10 scale reference

/-- `LogUnit::base2` (lib.rs line 102). -/
def base2 (scale : ℝ) (reference : Quantity) : LogUnit := new 2 scale reference

/-- `LogUnit::basee` (lib.rs line 103). -/
def basee (scale : ℝ) (reference : Quantity) : LogUnit :=
  new (Real.exp 1) scale reference

/-- `impl Unit for LogUnit`, `qty_to_val` (lib.rs lines 116-119):
`self.scale * f64::log(ratio, self.base)` where
`ratio = (value / self.reference).into()`. -/
def qty_to_val (u : LogUnit) (value : Quantity) : ℝ :=
  u.scale * Real.logb u.base ((value.div u.reference).value_si)

/-- `impl Unit for LogUnit`, `val_to_qty` (lib.rs lines 120-123):
`self.base.powf(value / self.scale) * self.reference`. -/
def val_to_qty (u : LogUnit) (value : ℝ) : Quantity :=
  Quantity.fMul (u.base ^ (value / u.scale)) u.reference

/-- `LogUnit::qty_of` (lib.rs line 108). -/
def qty_of (u : LogUnit) (val : ℝ) : Quantity := u.val_to_qty val

end LogUnit

/-- The `LogUnit<Dimen>` snapshot from coretypes.rs (lines 299-339): stores a
base-2-normalized scale only, and converts with `log2`/`exp2` internally. -/
structure LogUnitC where
  scale : ℝ
  reference : Quantity

namespace LogUnitC

/-- coretypes.rs `LogUnit::new` (lines 307-309):
stores `scale / f64::log2(base)`. -/
def new (base scale : ℝ) (reference : Quantity) : LogUnitC :=
  ⟨scale / Real.logb 2 base, reference⟩

/-- coretypes.rs `LogUnit::base2` (lines 311-313). -/
def base2 (scale : ℝ) (reference : Quantity) : LogUnitC := ⟨scale, reference⟩

/-- coretypes.rs `impl Unit for LogUnit`, `qty_to_val` (lines 331-334):
`self.scale * f64::log2(ratio)`. -/
def qty_to_val (u : LogUnitC) (value : Quantity) : ℝ :=
  u.scale * Real.logb 2 ((value.div u.reference).value_si)

/-- coretypes.rs `impl Unit for LogUnit`, `val_to_qty` (lines 335-338):
`f64::exp2(value / self.scale) * self.reference`. -/
def val_to_qty (u : LogUnitC) (value : ℝ) : Quantity :=
  Quantity.fMul ((2 : ℝ) ^ (value / u.scale)) u.reference

end LogUnitC

/-- `KELVIN` (defs.rs line 152): `Temperature::from_si(1.0)`. -/
def KELVIN : Quantity := Quantity.from_si 1

/-- `RANKINE` (defs.rs line 153): `KELVIN / 1.8`. -/
def RANKINE : Quantity := KELVIN.divF 1.8

/-- `CELSIUS` (defs.rs line 161): `OffsetSystem::new(KELVIN, 273.15 * KELVIN)`. -/
def CELSIUS : OffsetSystem :=
  OffsetSystem.new KELVIN (Quantity.fMul 273.15 KELVIN)

/-- `FAHRENHEIT` (defs.rs line 162):
`OffsetSystem::new(RANKINE, CELSIUS.zero_qty() - 32.0 * RANKINE)`. -/
def FAHRENHEIT : OffsetSystem :=
  OffsetSystem.new RANKINE (CELSIUS.zero_qty.sub (Quantity.fMul 32 RANKINE))

/-- Symbol emitted for the mass dimension. -/
def kgSymbol : String := "kg"

/-- Symbol emitted for the length dimension. -/
def mSymbol : String := "m"

/-- Symbol emitted for the time dimension. -/
def sSymbol : String := "s"

/-- Symbol emitted for the current dimension. -/
def aSymbol : String := "A"

/-- Symbol emitted for the temperature dimension. -/
def kSymbol : String := "K"

/-- The `write_unit_power!` macro body (lib.rs lines 190-199): emits nothing
for a zero exponent, otherwise a space, the symbol, and an exponent marker
whenever the exponent is not (literally) `1`. -/
def write_unit_power (power : Int) (symbol : String) : String :=
  if power ≠ 0 then
    " " ++ symbol ++ (if power ≠ 1 then "^" ++ toString power else "")
  else ""

/-- The suffix produced by `fmt_impl_with_suffix!` (lib.rs lines 200-216):
the five `write_unit_power!` calls in source order M, L, T, I, TEMP. -/
def unitSuffix (d : Dim) : String :=
  write_unit_power d.M kgSymbol ++ write_unit_power d.L mSymbol ++
    write_unit_power d.T sSymbol ++ write_unit_power d.I aSymbol ++
    write_unit_power d.TEMP kSymbol

/-- `fmt_impl_with_suffix!` (lib.rs lines 200-216): the numeric rendering of
`value_si` (abstracted here as the already-formatted mantissa string,
since the claims are about the unit suffix) followed by the unit suffix. -/
def fmt_impl (numStr : String) (d : Dim) : String := numStr ++ unitSuffix d

/-- Spec-mirror of the per-dimension emission with the amended marker rule:
nothing for a zero exponent, otherwise a space and the symbol, with an
exponent marker exactly when the exponent is not 1. -/
def emitSymbol (p : Int) (symbol : String) : String :=
  if p = 0 then ""
  else " " ++ symbol ++ (if p = 1 then "" else "^" ++ toString p)

/-- Spec-mirror of the whole suffix: the fixed emission order mass, length,
time, current, temperature, as a fold over the (exponent, symbol) table. -/
def suffixSpec (d : Dim) : String :=
  ([(d.M, kgSymbol), (d.L, mSymbol), (d.T, sSymbol), (d.I, aSymbol),
    (d.TEMP, kSymbol)]).foldr (fun x acc => emitSymbol x.1 x.2 ++ acc) ""

/-- The marker rule exactly as the claim words it: an exponent marker
appended exactly when the exponent's magnitude is not 1. -/
def emitSymbolClaim (p : Int) (symbol : String) : String :=
  if p = 0 then ""
  else " " ++ symbol ++ (if p.natAbs = 1 then "" else "^" ++ toString p)

/-- The claim's suffix, using the magnitude-based marker rule. -/
def suffixClaim (d : Dim) : String :=
  ([(d.M, kgSymbol), (d.L, mSymbol), (d.T, sSymbol), (d.I, aSymbol),
    (d.TEMP, kSymbol)]).foldr (fun x acc => emitSymbolClaim x.1 x.2 ++ acc) ""

/-- Sample mantissa string used in the C9 counterexample. -/
def sampleNum : String := "1"

/-- C1: for every offset unit built from a base unit and a zero quantity,
`qty_to_val q` returns `(q - zero) / unit` and `val_to_qty v` returns
`v * unit + zero`; with `CELSIUS` and `FAHRENHEIT` as defined in defs.rs,
converting the quantity 0 Celsius to the Fahrenheit unit yields 32 and
converting 100 Celsius yields 212. -/
theorem c1_offset_unit_conversions :
    (∀ (u z q : Quantity) (v : ℝ),
      (OffsetSystem.new u z).qty_to_val q =
        (q.value_si - z.value_si) / u.value_si ∧
      (OffsetSystem.new u z).val_to_qty v =
        Quantity.from_si (v * u.value_si + z.value_si)) ∧
    FAHRENHEIT.qty_to_val (CELSIUS.val_to_qty 0) = 32 ∧
    FAHRENHEIT.qty_to_val (CELSIUS.val_to_qty 100) = 212 := by
  refine ⟨fun u z q v => ⟨rfl, rfl⟩, ?_, ?_⟩ <;>
    · simp only [FAHRENHEIT, CELSIUS, RANKINE, KELVIN, OffsetSystem.new,
        OffsetSystem.zero_qty, OffsetSystem.qty_to_val, OffsetSystem.val_to_qty,
        Quantity.from_si, Quantity.fMul, Quantity.add, Quantity.sub,
        Quantity.div, Quantity.divF]
      norm_num

/-- C5: `as_rel_unit` converts via the base linear unit alone, ignoring the
stored zero offset; a 10 K temperature difference converted via the relative
Fahrenheit interpretation (base unit `RANKINE = KELVIN/1.8`) yields 18. -/
theorem c5_rel_unit_ignores_zero :
    (∀ (s : OffsetSystem) (d : Quantity),
      s.as_rel_unit.qty_to_val d = d.value_si / s.unit.value_si) ∧
    FAHRENHEIT.as_rel_unit.qty_to_val (Quantity.from_si 10) = 18 := by
  refine ⟨fun s d => rfl, ?_⟩
  simp only [FAHRENHEIT, RANKINE, KELVIN, OffsetSystem.new,
    OffsetSystem.as_rel_unit, Quantity.qty_to_val, Quantity.from_si,
    Quantity.divF]
  norm_num

/-- C10: for every offset unit and all numbers `a` and `d`, the absolute and
relative constructors cohere additively:
`abs_qty_of a + rel_qty_of d = abs_qty_of (a + d)` (exact arithmetic). -/
theorem c10_abs_rel_additive (s : OffsetSystem) (a d : ℝ) :
    (s.abs_qty_of a).add (s.rel_qty_of d) = s.abs_qty_of (a + d) := by
  ext
  simp only [OffsetSystem.abs_qty_of, OffsetSystem.rel_qty_of,
    OffsetSystem.val_to_qty, Quantity.val_to_qty, Quantity.fMul, Quantity.add]
  ring

/-- In the i32 range the wrapping cast is the identity. -/
theorem wrap32_eq_self (P : ℤ) (hlo : -(2 ^ 31) ≤ P) (hhi : P < 2 ^ 31) :
    wrap32 P = P := by
  unfold wrap32
  rw [Int.emod_eq_of_lt (by linarith) (by linarith)]
  ring

/-- C3 fails as stated at an exponent outside the i32 range: the `as i32`
cast in `powi(P as i32)` wraps `P = 2^31` to `-2^31`, so the stored value
of the quantity of value 2 raised to `pow::<2^31>` is the reciprocal
`2^(-2^31)`, not `2^(2^31)`. -/
theorem c3_counterexample :
    ((Quantity.from_si 2).pow (2 ^ 31)).value_si ≠
      (Quantity.from_si 2).value_si ^ (2 ^ 31 : ℤ) := by
  have hwrap : wrap32 (2 ^ 31) = -(2 ^ 31) := by decide
  simp only [Quantity.pow, Quantity.from_si, hwrap]
  have h1 : (1 : ℝ) < 2 ^ (2 ^ 31 : ℕ) := one_lt_pow₀ (by norm_num) (by norm_num)
  rw [show (-(2 ^ 31) : ℤ) = -((2 ^ 31 : ℕ) : ℤ) by norm_num,
    show ((2 ^ 31 : ℤ)) = ((2 ^ 31 : ℕ) : ℤ) by norm_num,
    zpow_neg, zpow_natCast]
  exact ne_of_lt (lt_trans (inv_lt_one_of_one_lt₀ h1) h1)

/-- C3 (amended: the compile-time exponent lies in the i32 range, where the
`as i32` cast of `powi(P as i32)` is the identity): `a.pow::<P>()` has
dimension exponents `(P*T, P*L, P*M, P*I, P*TEMP)` and its stored value is
the stored value of `a` raised to the integer power `P`, with negative `P`
giving the reciprocal rather than a truncated repeated product. -/
theorem c3_pow_value_and_dims (P : ℤ) (d : Dim) (q : Quantity)
    (hlo : -(2 ^ 31) ≤ P) (hhi : P < 2 ^ 31) :
    (powDim P d).T = P * d.T ∧ (powDim P d).L = P * d.L ∧
    (powDim P d).M = P * d.M ∧ (powDim P d).I = P * d.I ∧
    (powDim P d).TEMP = P * d.TEMP ∧
    (q.pow P).value_si = q.value_si ^ P ∧
    (q.pow P).value_si = (q.value_si ^ (-P))⁻¹ := by
  have hw : wrap32 P = P := wrap32_eq_self P hlo hhi
  refine ⟨rfl, rfl, rfl, rfl, rfl, ?_, ?_⟩
  · simp only [Quantity.pow, hw]
  · simp only [Quantity.pow, hw]
    rw [← zpow_neg, neg_neg]

/-- C3 witness: the amended statement at exponent -2 (inside the i32
range), the dimension vector of a velocity, and the value 3. -/
theorem c3_witness :
    -(2 ^ 31) ≤ (-2 : ℤ) ∧ (-2 : ℤ) < 2 ^ 31 ∧
    ((powDim (-2) ⟨-1, 1, 0, 0, 0⟩).T = -2 * (Dim.mk (-1) 1 0 0 0).T ∧
      (powDim (-2) ⟨-1, 1, 0, 0, 0⟩).L = -2 * (Dim.mk (-1) 1 0 0 0).L ∧
      (powDim (-2) ⟨-1, 1, 0, 0, 0⟩).M = -2 * (Dim.mk (-1) 1 0 0 0).M ∧
      (powDim (-2) ⟨-1, 1, 0, 0, 0⟩).I = -2 * (Dim.mk (-1) 1 0 0 0).I ∧
      (powDim (-2) ⟨-1, 1, 0, 0, 0⟩).TEMP = -2 * (Dim.mk (-1) 1 0 0 0).TEMP ∧
      ((Quantity.from_si 3).pow (-2)).value_si =
        (Quantity.from_si 3).value_si ^ (-2 : ℤ) ∧
      ((Quantity.from_si 3).pow (-2)).value_si =
        ((Quantity.from_si 3).value_si ^ (-(-2) : ℤ))⁻¹) :=
  ⟨by decide, by decide,
    c3_pow_value_and_dims (-2) ⟨-1, 1, 0, 0, 0⟩ (Quantity.from_si 3)
      (by decide) (by decide)⟩

/-- C4 fails as stated at the zero quantity used as a unit: extracting the
value of `val_to_qty 1` through the unit with stored value 0 yields 0, not
the required 1. -/
theorem c4_counterexample :
    Quantity.qty_to_val (Quantity.from_si 0)
      ((Quantity.from_si 0).val_to_qty 1) ≠ 1 := by
  simp [Quantity.qty_to_val, Quantity.val_to_qty, Quantity.fMul,
    Quantity.from_si]

/-- C4 (amended: the linear unit has a non-zero stored value): `qty_to_val`
is the ratio of stored values, `val_to_qty` multiplies by the unit, and both
round trips hold: `val_to_qty (qty_to_val (val_to_qty v)) = val_to_qty v`
and `qty_to_val (val_to_qty v) = v`. -/
theorem c4_linear_unit_roundtrips (u q : Quantity) (v : ℝ)
    (hu : u.value_si ≠ 0) :
    u.qty_to_val q = q.value_si / u.value_si ∧
    u.val_to_qty v = Quantity.from_si (v * u.value_si) ∧
    u.val_to_qty (u.qty_to_val (u.val_to_qty v)) = u.val_to_qty v ∧
    u.qty_to_val (u.val_to_qty v) = v := by
  refine ⟨rfl, rfl, ?_, ?_⟩ <;>
    · simp only [Quantity.qty_to_val, Quantity.val_to_qty, Quantity.fMul,
        Quantity.mk.injEq]
      field_simp

/-- C4 witness: the amended round trips at the concrete unit 2, quantity 5
and value 3. -/
theorem c4_witness :
    (Quantity.from_si 2).value_si ≠ 0 ∧
    ((Quantity.from_si 2).qty_to_val (Quantity.from_si 5) =
        (Quantity.from_si 5).value_si / (Quantity.from_si 2).value_si ∧
      (Quantity.from_si 2).val_to_qty 3 =
        Quantity.from_si (3 * (Quantity.from_si 2).value_si) ∧
      (Quantity.from_si 2).val_to_qty
          ((Quantity.from_si 2).qty_to_val
            ((Quantity.from_si 2).val_to_qty 3)) =
        (Quantity.from_si 2).val_to_qty 3 ∧
      (Quantity.from_si 2).qty_to_val ((Quantity.from_si 2).val_to_qty 3) = 3) :=
  ⟨by norm_num [Quantity.from_si],
    c4_linear_unit_roundtrips (Quantity.from_si 2) (Quantity.from_si 5) 3
      (by norm_num [Quantity.from_si])⟩

/-- Helper for C2: with a non-zero divisor, `div_evenly` succeeds exactly on
divisible numerators. -/
theorem div_evenly_isSome_iff (x R : ℤ) (hR : R ≠ 0) :
    (div_evenly x R).isSome ↔ R ∣ x := by
  by_cases h : x.tmod R = 0
  · simpa [div_evenly, hR, h] using Int.dvd_of_tmod_eq_zero h
  · simp only [div_evenly, hR, h, if_false, ite_not, if_neg, if_true,
      not_false_eq_true, Option.isSome_none, Bool.false_eq_true, false_iff]
    exact fun hdvd => h (Int.tmod_eq_zero_of_dvd hdvd)

/-- C2: `div_evenly num den` panics during constant evaluation (modelled as
`none`) exactly when `num % den` is non-zero, and otherwise returns the
exact integer quotient (`den * quotient = num`, no truncation); hence the
type-level exponents of `root::<R>` are defined exactly when every one of
the five dimension exponents is evenly divisible by `R`. -/
theorem c2_root_divisibility (num den R : ℤ) (d : Dim)
    (hden : den ≠ 0) (hR : R ≠ 0) :
    (div_evenly num den = none ↔ num.tmod den ≠ 0) ∧
    (num.tmod den = 0 →
      div_evenly num den = some (num.tdiv den) ∧
        den * num.tdiv den = num) ∧
    ((rootDim R d).isSome ↔
      R ∣ d.T ∧ R ∣ d.L ∧ R ∣ d.M ∧ R ∣ d.I ∧ R ∣ d.TEMP) := by
  refine ⟨?_, ?_, ?_⟩
  · simp only [div_evenly, hden, if_false, ite_not]
    by_cases h : num.tmod den = 0 <;> simp [h]
  · intro h
    exact ⟨by simp [div_evenly, hden, h],
      Int.mul_tdiv_cancel_of_tmod_eq_zero h⟩
  · rw [← div_evenly_isSome_iff d.T R hR, ← div_evenly_isSome_iff d.L R hR,
      ← div_evenly_isSome_iff d.M R hR, ← div_evenly_isSome_iff d.I R hR,
      ← div_evenly_isSome_iff d.TEMP R hR]
    unfold rootDim
    cases div_evenly d.T R <;> cases div_evenly d.L R <;>
      cases div_evenly d.M R <;> cases div_evenly d.I R <;>
      cases div_evenly d.TEMP R <;> simp

/-- C2 witness: divisor 3 on numerator 6, and the root divisor 2 on the
dimension vector (2, 4, 0, -2, 6). -/
theorem c2_witness :
    (3 : ℤ) ≠ 0 ∧ (2 : ℤ) ≠ 0 ∧
    ((div_evenly 6 3 = none ↔ Int.tmod 6 3 ≠ 0) ∧
      (Int.tmod 6 3 = 0 →
        div_evenly 6 3 = some (Int.tdiv 6 3) ∧
          3 * Int.tdiv 6 3 = 6) ∧
      ((rootDim 2 ⟨2, 4, 0, -2, 6⟩).isSome ↔
        (2 : ℤ) ∣ 2 ∧ (2 : ℤ) ∣ 4 ∧ (2 : ℤ) ∣ 0 ∧
          (2 : ℤ) ∣ -2 ∧ (2 : ℤ) ∣ 6)) :=
  ⟨by decide, by decide,
    c2_root_divisibility 6 3 2 ⟨2, 4, 0, -2, 6⟩ (by decide) (by decide)⟩

/-- C7 fails as stated at a negative stored value: squaring the quantity
with value -2 and then taking the square root yields the value 2, not -2
(the composition is the absolute value on negatives, far outside any
floating-point tolerance). -/
theorem c7_counterexample :
    ((Quantity.from_si (-2)).pow 2).root 2 ≠ Quantity.from_si (-2) := by
  intro h
  have hw2 : wrap32 2 = 2 := by decide
  have hv := congrArg Quantity.value_si h
  simp only [Quantity.pow, Quantity.root, Quantity.from_si, hw2] at hv
  rw [show ((-2 : ℝ)) ^ (2 : ℤ) = 4 by norm_num] at hv
  rw [show ((4 : ℝ)) ^ ((1 : ℝ) / ((2 : ℤ) : ℝ)) = 2 by
      rw [show (((2 : ℤ) : ℝ)) = (2 : ℝ) by norm_num]
      rw [show (4 : ℝ) = (2 : ℝ) ^ (2 : ℕ) by norm_num,
        ← Real.rpow_natCast 2 2, ← Real.rpow_mul (by norm_num : (0 : ℝ) ≤ 2)]
      norm_num] at hv
  norm_num at hv

/-- C7 (amended: non-negative stored value, and the exponent positive and
inside the i32 range so the `as i32` cast of `powi` is the identity): for
every quantity `a` with `0 ≤ a.value_si` and every integer `p` with
`0 < p < 2^31`, `a.pow::<p>().root::<p>() = a` exactly, and the dimension
exponents of `a.pow::<p>()` equal those of `a` each multiplied by `p`. -/
theorem c7_pow_root_roundtrip (q : Quantity) (p : ℤ) (d : Dim)
    (hq : 0 ≤ q.value_si) (hp : 0 < p) (hp31 : p < 2 ^ 31) :
    (q.pow p).root p = q ∧
    (powDim p d).T = p * d.T ∧ (powDim p d).L = p * d.L ∧
    (powDim p d).M = p * d.M ∧ (powDim p d).I = p * d.I ∧
    (powDim p d).TEMP = p * d.TEMP := by
  refine ⟨?_, rfl, rfl, rfl, rfl, rfl⟩
  have hw : wrap32 p = p := wrap32_eq_self p (by omega) hp31
  have hp0 : ((p : ℤ) : ℝ) ≠ 0 := Int.cast_ne_zero.mpr hp.ne'
  ext
  simp only [Quantity.pow, Quantity.root, hw]
  rw [← Real.rpow_intCast q.value_si p, ← Real.rpow_mul hq]
  rw [show ((p : ℤ) : ℝ) * ((1 : ℝ) / (p : ℝ)) = 1 by field_simp]
  exact Real.rpow_one q.value_si

/-- C7 witness: the amended round trip at the value 3, power 2, and the
dimension vector of a length. -/
theorem c7_witness :
    (0 : ℝ) ≤ (Quantity.from_si 3).value_si ∧ (0 : ℤ) < 2 ∧
    (2 : ℤ) < 2 ^ 31 ∧
    (((Quantity.from_si 3).pow 2).root 2 = Quantity.from_si 3 ∧
      (powDim 2 ⟨1, 0, 0, 0, 0⟩).T = 2 * (Dim.mk 1 0 0 0 0).T ∧
      (powDim 2 ⟨1, 0, 0, 0, 0⟩).L = 2 * (Dim.mk 1 0 0 0 0).L ∧
      (powDim 2 ⟨1, 0, 0, 0, 0⟩).M = 2 * (Dim.mk 1 0 0 0 0).M ∧
      (powDim 2 ⟨1, 0, 0, 0, 0⟩).I = 2 * (Dim.mk 1 0 0 0 0).I ∧
      (powDim 2 ⟨1, 0, 0, 0, 0⟩).TEMP = 2 * (Dim.mk 1 0 0 0 0).TEMP) :=
  ⟨by norm_num [Quantity.from_si], by decide, by decide,
    c7_pow_root_roundtrip (Quantity.from_si 3) 2 ⟨1, 0, 0, 0, 0⟩
      (by norm_num [Quantity.from_si]) (by decide) (by decide)⟩

/-- C6 fails as stated at a degenerate log unit: with scale 0 (base 2,
reference of value 1), the round trip of the value 1 returns 0, not 1. -/
theorem c6_counterexample :
    (LogUnit.new 2 0 (Quantity.from_si 1)).qty_to_val
      ((LogUnit.new 2 0 (Quantity.from_si 1)).val_to_qty 1) ≠ 1 := by
  simp [LogUnit.new, LogUnit.qty_to_val]

/-- C6 (amended: the log unit is non-degenerate, i.e. positive base other
than 1, non-zero scale and a reference with non-zero stored value): the
round trip `qty_to_val (val_to_qty x) = x` holds exactly; moreover for
every `LogUnit` whatsoever, converting its own reference quantity yields
the numeric value 0. -/
theorem c6_log_roundtrip_and_reference (base scale : ℝ) (r : Quantity)
    (x : ℝ) (L : LogUnit) (hb : 0 < base) (hb1 : base ≠ 1)
    (hs : scale ≠ 0) (hr : r.value_si ≠ 0) :
    (LogUnit.new base scale r).qty_to_val
      ((LogUnit.new base scale r).val_to_qty x) = x ∧
    L.qty_to_val L.reference = 0 := by
  constructor
  · simp only [LogUnit.new, LogUnit.qty_to_val, LogUnit.val_to_qty,
      Quantity.fMul, Quantity.div]
    rw [mul_div_cancel_right₀ _ hr, Real.logb_rpow hb hb1, mul_comm,
      div_mul_cancel₀ x hs]
  · simp only [LogUnit.qty_to_val, Quantity.div]
    rcases eq_or_ne L.reference.value_si 0 with h | h
    · simp [h]
    · simp [div_self h]

/-- C6 witness: base 10, scale 10, reference value 1 (the shape of a
decibel unit), round-tripping the value 1; the reference conversion is
checked on the same unit. -/
theorem c6_witness :
    (0 : ℝ) < 10 ∧ (10 : ℝ) ≠ 1 ∧ (10 : ℝ) ≠ 0 ∧
    (Quantity.from_si 1).value_si ≠ 0 ∧
    ((LogUnit.new 10 10 (Quantity.from_si 1)).qty_to_val
        ((LogUnit.new 10 10 (Quantity.from_si 1)).val_to_qty 1) = 1 ∧
      (LogUnit.new 10 10 (Quantity.from_si 1)).qty_to_val
        (LogUnit.new 10 10 (Quantity.from_si 1)).reference = 0) :=
  ⟨by norm_num, by norm_num, by norm_num, by norm_num [Quantity.from_si],
    c6_log_roundtrip_and_reference 10 10 (Quantity.from_si 1) 1
      (LogUnit.new 10 10 (Quantity.from_si 1)) (by norm_num) (by norm_num)
      (by norm_num) (by norm_num [Quantity.from_si])⟩

/-- C8 fails as stated at the (mathematically meaningless) negative base -2:
with scale 1 and reference value 1, the lib.rs version computes
`(-2)^1 = -2` while the base-2-normalized coretypes.rs version computes
`2^(log2|-2|) = 2`, so the two snapshots disagree on this constructor
input. -/
theorem c8_counterexample :
    (LogUnit.new (-2) 1 (Quantity.from_si 1)).val_to_qty 1 ≠
      (LogUnitC.new (-2) 1 (Quantity.from_si 1)).val_to_qty 1 := by
  have hlog : Real.logb 2 (-2) = 1 := by
    rw [show ((-2 : ℝ)) = -(2 : ℝ) by norm_num, Real.logb_neg_eq_logb,
      Real.logb_self_eq_one (by norm_num : (1 : ℝ) < 2)]
  intro h
  have hv := congrArg Quantity.value_si h
  simp only [LogUnit.new, LogUnit.val_to_qty, LogUnitC.new, LogUnitC.val_to_qty,
    Quantity.fMul, Quantity.from_si, hlog, div_one, Real.rpow_one, mul_one] at hv
  norm_num at hv

/-- C8 (amended: positive logarithm base): for the same constructor
arguments with `0 < base`, the lib.rs `LogUnit` (stores the base, converts
with `log`/`powf`) and the coretypes.rs `LogUnit` (pre-divides the scale by
`log2(base)`, converts with `log2`/`exp2`) produce equal results from
`qty_to_val` and `val_to_qty` on every input. -/
theorem c8_log_unit_snapshots_equivalent (base scale : ℝ) (r q : Quantity)
    (v : ℝ) (hb : 0 < base) :
    (LogUnit.new base scale r).qty_to_val q =
      (LogUnitC.new base scale r).qty_to_val q ∧
    (LogUnit.new base scale r).val_to_qty v =
      (LogUnitC.new base scale r).val_to_qty v := by
  constructor
  · simp only [LogUnit.new, LogUnit.qty_to_val, LogUnitC.new,
      LogUnitC.qty_to_val]
    by_cases hlb : Real.log base = 0
    · simp [Real.logb, hlb]
    · have h2 : Real.log 2 ≠ 0 := (Real.log_pos (by norm_num)).ne'
      simp only [Real.logb]
      field_simp
      ring
  · simp only [LogUnit.new, LogUnit.val_to_qty, LogUnitC.new,
      LogUnitC.val_to_qty, Quantity.fMul, Quantity.mk.injEq]
    have key : base ^ (v / scale) = (2 : ℝ) ^ (v / (scale / Real.logb 2 base)) := by
      by_cases hs : scale = 0
      · simp [hs]
      by_cases hlb : Real.log base = 0
      · have hbase1 : base = 1 := by
          rcases Real.log_eq_zero.mp hlb with h | h | h
          · exact absurd h hb.ne'
          · exact h
          · linarith
        simp [hbase1, Real.logb]
      · rw [div_div_eq_mul_div,
          show v * Real.logb 2 base / scale = Real.logb 2 base * (v / scale) by
            ring,
          Real.rpow_mul (by norm_num : (0 : ℝ) ≤ 2),
          Real.rpow_logb (by norm_num) (by norm_num) hb]
    rw [key]

/-- C8 witness: the amended equivalence at base 2, scale 1, reference value
1, converting the quantity of value 4 and the numeric value 1. -/
theorem c8_witness :
    (0 : ℝ) < 2 ∧
    ((LogUnit.new 2 1 (Quantity.from_si 1)).qty_to_val (Quantity.from_si 4) =
        (LogUnitC.new 2 1 (Quantity.from_si 1)).qty_to_val
          (Quantity.from_si 4) ∧
      (LogUnit.new 2 1 (Quantity.from_si 1)).val_to_qty 1 =
        (LogUnitC.new 2 1 (Quantity.from_si 1)).val_to_qty 1) :=
  ⟨by norm_num,
    c8_log_unit_snapshots_equivalent 2 1 (Quantity.from_si 1)
      (Quantity.from_si 4) 1 (by norm_num)⟩

/-- C9 fails as stated at exponent -1: the magnitude of -1 is 1, so the
claim predicts no exponent marker for a reciprocal unit, but the code emits
one (the length exponent -1 renders as an explicit marker after the
symbol). -/
theorem c9_counterexample :
    fmt_impl sampleNum (Dim.mk 0 (-1) 0 0 0) ≠
      sampleNum ++ suffixClaim (Dim.mk 0 (-1) 0 0 0) := by decide

/-- C9 (amended: the explicit exponent marker is appended exactly when the
exponent is not 1, so exponent -1 also carries a marker): formatting writes
the numeric value followed by, for each dimension with non-zero exponent in
the fixed order mass (kg), length (m), time (s), current (A), temperature
(K), the dimension's symbol and the marker per that rule; zero exponents
produce no output. -/
theorem c9_format_suffix (numStr : String) (d : Dim) :
    fmt_impl numStr d = numStr ++ suffixSpec d := by
  have h : ∀ (p : Int) (s : String), write_unit_power p s = emitSymbol p s := by
    intro p s
    unfold write_unit_power emitSymbol
    by_cases h0 : p = 0 <;> by_cases h1 : p = 1 <;> simp [h0, h1]
  apply String.ext
  simp [fmt_impl, unitSuffix, suffixSpec, h, String.data_append, List.foldr,
    List.append_assoc]
